import Mathlib

/-!
Shallow embedding of the daily-quota-aware cache and historical-series
accumulator of the backend service (backend/api_server.py).

Modelling conventions:
* Calendar dates are integers (day indices); the ISO date string of the
  source is represented by its day index.  The current date is an explicit
  parameter named today, timestamps are opaque strings.
* Prices are rationals; the float values of the source are represented
  exactly.
* The three persisted JSON stores are explicit values threaded through the
  operations: the quota ledger is a total function from dates to per-day
  usage records (a date absent from the JSON object is represented by the
  default record with 0 calls and an empty log, which is exactly the
  default the source supplies on lookup), the snapshot cache is a record of
  optional fields, the historical store is a function from dates to
  optional records together with the sentinel field.
* Outbound HTTP calls are oracles passed in as parameters.  For the
  quota-limited quote, the oracle value none means the request or the JSON
  decode raised (the source reaches its except branch before recording the
  call), and some q means the response decoded as JSON, with q the result
  of extracting and parsing the price field (q = none when the field is
  absent or its value fails to parse, both after the call was recorded).
-/

/-- Daily quota limit, MAX_API_CALLS_PER_DAY in the source. -/
def MAX_API_CALLS_PER_DAY : Nat := 2

/-- One entry of the per-day call log kept by record_api_call. -/
structure LogEntry where
  api : String
  timestamp : String
deriving DecidableEq, Repr

/-- Per-date record of the quota ledger (api_usage_log.json). -/
structure DailyUsage where
  calls : Nat
  log : List LogEntry
deriving DecidableEq, Repr

/-- The quota ledger: a date absent from the JSON file maps to the default
record with 0 calls, matching the defaulted lookups of the source. -/
abbrev Usage := Int → DailyUsage

/-- The ledger of a process that has made no calls. -/
def emptyUsage : Usage := fun _ => ⟨0, []⟩

/-- Pointwise update of the ledger at one date. -/
def updateUsage (u : Usage) (d : Int) (v : DailyUsage) : Usage :=
  fun x => if x = d then v else u x

/-- check_api_limit: true iff the count for the current date is below the
daily limit. -/
def check_api_limit (usage : Usage) (today : Int) : Bool :=
  decide ((usage today).calls < MAX_API_CALLS_PER_DAY)

/-- record_api_call: unconditionally increments the count for the current
date, appends a log entry, and returns the updated ledger together with the
new count. -/
def record_api_call (api : String) (usage : Usage) (today : Int) (now : String) :
    Usage × Nat :=
  let du := usage today
  let du2 : DailyUsage := ⟨du.calls + 1, du.log ++ [⟨api, now⟩]⟩
  (updateUsage usage today du2, du2.calls)

/-- Result of one invocation of fetch_adr_price: the optional price, the
ledger after the invocation, whether the upstream was contacted (the
request was issued), and whether record_api_call ran. -/
structure FetchResult where
  price : Option ℚ
  usage : Usage
  contacted : Bool
  recorded : Bool

/-- fetch_adr_price: if the quota gate denies, return none without contact;
otherwise issue the request.  resp = none models the request or JSON decode
raising (caught by the except branch, nothing recorded); resp = some q
models a decoded JSON response: the call is recorded, and q is the parsed
price field (none when the field is absent). -/
def fetch_adr_price (resp : Option (Option ℚ)) (usage : Usage) (today : Int)
    (now : String) : FetchResult :=
  if check_api_limit usage today then
    match resp with
    | none => ⟨none, usage, true, false⟩
    | some q =>
        ⟨q, (record_api_call "ALPHA_VANTAGE_ADR" usage today now).1, true, true⟩
  else ⟨none, usage, false, false⟩

/-- The snapshot cache (daily_prices_cache.json); every field optional, the
empty cache models a missing or unreadable file. -/
structure Cache where
  date : Option Int
  adr_price : Option ℚ
  tw_price : Option ℚ
  usd_twd : Option ℚ
  last_updated : Option String
  data_source : Option String
deriving DecidableEq, Repr

/-- The all-empty cache returned by load_cache when no file exists. -/
def emptyCache : Cache := ⟨none, none, none, none, none, none⟩

/-- is_cache_valid: the stored date equals the current date. -/
def is_cache_valid (c : Cache) (today : Int) : Bool :=
  decide (c.date = some today)

/-- The dictionary returned by get_cached_prices.  data_source = none
models the absence of that key from the returned dictionary (the fast path
omits it). -/
structure PriceResult where
  adr_price : Option ℚ
  tw_price : Option ℚ
  usd_twd : Option ℚ
  last_updated : Option String
  cache_date : Option Int
  data_source : Option String
deriving DecidableEq, Repr

/-- The upstream world of one call to get_cached_prices: the quota-quote
oracle (see fetch_adr_price) and the results of the two free fetchers,
fetch_tw_price and fetch_usd_twd, each already collapsed to an optional
value as the source does at those function boundaries. -/
structure Env where
  adr_resp : Option (Option ℚ)
  tw_resp : Option ℚ
  rate_resp : Option ℚ

/-- Full outcome of one call to get_cached_prices: the returned dictionary,
the persisted snapshot store after the call, the quota ledger after the
call, whether the fetch branch ran at all, and whether the quota upstream
was contacted. -/
structure GCPResult where
  result : PriceResult
  cache : Cache
  usage : Usage
  fetch_attempted : Bool
  adr_contacted : Bool

/-- get_cached_prices: fast path when the cache is valid (no fetch, and the
returned dictionary carries no data_source key); otherwise all three
fetchers are attempted, and the snapshot store is overwritten only when the
quota-quote fetch yielded a price. -/
def get_cached_prices (env : Env) (cache : Cache) (usage : Usage) (today : Int)
    (now : String) : GCPResult :=
  if is_cache_valid cache today then
    ⟨⟨cache.adr_price, cache.tw_price, cache.usd_twd, cache.last_updated,
      cache.date, none⟩, cache, usage, false, false⟩
  else
    let fr := fetch_adr_price env.adr_resp usage today now
    match fr.price with
    | some adr =>
        let newCache : Cache :=
          ⟨some today, some adr, env.tw_resp, env.rate_resp, some now,
           some "fresh_api_call"⟩
        ⟨⟨some adr, env.tw_resp, env.rate_resp, some now, some today,
          some "fresh_api_call"⟩, newCache, fr.usage, true, fr.contacted⟩
    | none =>
        ⟨⟨cache.adr_price, env.tw_resp, env.rate_resp, cache.last_updated,
          cache.date, some "cached_due_to_api_limit"⟩, cache, fr.usage, true,
         fr.contacted⟩

/-- N successive calls to get_cached_prices against a cache that is
invalidated before every call (the quota ledger is threaded through);
returns the final ledger and how many of the calls contacted the
quota-limited upstream. -/
def runRefreshes (today : Int) (now : String) (cache : Cache) :
    List Env → Usage → Usage × Nat
  | [], u => (u, 0)
  | e :: es, u =>
      let g := get_cached_prices e cache u today now
      let p := runRefreshes today now cache es g.usage
      (p.1, (if g.adr_contacted then 1 else 0) + p.2)

/-- One date-keyed record of the historical store
(price_history_cache.json).  Fields are optional because the JSON object
for a date may lack keys; the check of get_historical_data requires all
three price keys.  The timestamp written by the backfill is modelled by the
day index of the record. -/
structure HistRecord where
  adr_price : Option ℚ
  tw_price : Option ℚ
  usd_twd : Option ℚ
  timestamp : Option Int
deriving DecidableEq, Repr

/-- The historical store: the date-keyed mapping (none for an absent date)
plus the last_fetch_date sentinel, which the source keeps as a
distinguished key of the same JSON object, excluded from date iteration. -/
structure History where
  records : Int → Option HistRecord
  last_fetch_date : Option Int

/-- Store or overwrite the record of one date. -/
def setRecord (h : History) (d : Int) (r : HistRecord) : History :=
  ⟨fun x => if x = d then some r else h.records x, h.last_fetch_date⟩

/-- The per-date loop body of fetch_historical_data over the (up to 30)
feed entries: an entry is a pair of a date and the optional parsed close
(none when parsing the close raised, which the source skips); a date whose
local-exchange price lookup (fetch_tw_price_by_date, the oracle twByDate)
returns none is skipped entirely; otherwise a complete record with the
fixed exchange-rate approximation 32 is stored. -/
def processEntries (twByDate : Int → Option ℚ) :
    List (Int × Option ℚ) → History → History
  | [], h => h
  | (d, c) :: rest, h =>
      match c with
      | none => processEntries twByDate rest h
      | some a =>
          match twByDate d with
          | none => processEntries twByDate rest h
          | some t =>
              processEntries twByDate rest
                (setRecord h d ⟨some a, some t, some 32, some d⟩)

/-- Outcome of one call to fetch_historical_data: the store after the call
and whether the time-series endpoint was contacted. -/
structure HistFetchResult where
  history : History
  ts_contacted : Bool

/-- fetch_historical_data: skip when the sentinel already equals the
current date; otherwise contact the time-series endpoint.  ts_resp = none
models the request raising or the expected key being absent from the
response (in both cases the source leaves the store, sentinel included,
unchanged); ts_resp = some entries models the decoded daily series in feed
order, of which the first 30 entries are processed, after which the
sentinel is set to the current date and the store persisted. -/
def fetch_historical_data (ts_resp : Option (List (Int × Option ℚ)))
    (twByDate : Int → Option ℚ) (h : History) (today : Int) : HistFetchResult :=
  if h.last_fetch_date = some today then ⟨h, false⟩
  else
    match ts_resp with
    | none => ⟨h, true⟩
    | some entries =>
        ⟨{ processEntries twByDate (entries.take 30) h with
            last_fetch_date := some today }, true⟩

/-- One element of the output of the historical endpoint. -/
structure HistOut where
  date : Int
  adr_price_usd : ℚ
  tw_price : ℚ
  usd_twd : ℚ
  adr_in_twd : ℚ
  difference : ℚ
  difference_percent : ℚ
deriving DecidableEq, Repr

/-- The per-date body of the output loop of get_historical_data: an entry
is produced only when a record exists for the date and carries all three
price fields, with the derived fields computed as in the source. -/
def histEntry (h : History) (d : Int) : Option HistOut :=
  match h.records d with
  | none => none
  | some r =>
      match r.adr_price, r.tw_price, r.usd_twd with
      | some a, some t, some u =>
          some ⟨d, a, t, u, a / 5 * u, a / 5 * u - t, (a / 5 * u - t) / t * 100⟩
      | _, _, _ => none

/-- get_historical_data, the assembly of the returned sequence (the loop
over i = 30 down to 1, visiting the dates today − 30 up to today − 1 in
ascending order). -/
def get_historical_data (h : History) (today : Int) : List HistOut :=
  ((List.range 30).map (fun j : ℕ => today - 30 + (j : ℤ))).filterMap (histEntry h)

/-- One comparison block of the conversion endpoint. -/
structure Comparison where
  tw_reference_price : ℚ
  difference : ℚ
  difference_percent : ℚ
deriving DecidableEq, Repr

/-- The response of the conversion endpoint.  The formula_explanation
string of the source is presentation only (a formatted echo of the inputs)
and is not modelled. -/
structure ConversionResponse where
  converted_price : ℚ
  compared_to_tw_price : Option Comparison
deriving DecidableEq, Repr

/-- convert_adr_to_tw: the pure conversion (adr_price / 5) * usd_twd,
enriched with a comparison against the tw_price field of the current
snapshot exactly when that field is present and nonzero (the truthiness
test of the source: None and 0.0 are both falsy). -/
def convert_adr_to_tw (adr_price usd_twd : ℚ) (tw_ref : Option ℚ) :
    ConversionResponse :=
  let converted := adr_price / 5 * usd_twd
  match tw_ref with
  | none => ⟨converted, none⟩
  | some t =>
      if t = 0 then ⟨converted, none⟩
      else ⟨converted, some ⟨t, converted - t, (converted - t) / t * 100⟩⟩

/-! Concrete fixtures used by counterexamples and witnesses. -/

/-- Fixture: a ledger already at the daily limit for every date. -/
def uAtLimit : Usage := fun _ => ⟨2, []⟩

/-- Fixture: a stale snapshot from day 9 (receipt 150, local 550, rate 31). -/
def staleCache : Cache :=
  ⟨some 9, some 150, some 550, some 31, some "D9", some "fresh_api_call"⟩

/-- Fixture: upstreams with a live quota quote 999, local 600, rate 31.5. -/
def envAtLimit : Env := ⟨some (some 999), some 600, some (63 / 2)⟩

/-- Fixture: upstreams with a live quota quote 180, local 600, rate 31. -/
def envFresh : Env := ⟨some (some 180), some 600, some 31⟩

/-- Fixture: the quota-quote request raises; the free fetchers succeed. -/
def envDown : Env := ⟨none, some 600, some 31⟩

/-- Fixture: a local-price-by-date oracle that always fails. -/
def tw0 : Int → Option ℚ := fun _ => none

/-- Fixture: a historical store holding one record at day 0, last fetched
on day 99. -/
def oldHistory : History :=
  ⟨fun d => if d = 0 then some ⟨some 1, some 2, some 32, some 0⟩ else none,
   some 99⟩

/-- Fixture: an empty historical store last fetched on day 4. -/
def hYesterday : History := ⟨fun _ => none, some 4⟩

/-- Fixture: an empty historical store last fetched on day 5. -/
def hToday5 : History := ⟨fun _ => none, some 5⟩

/-- Fixture: a historical store with one complete record at day 95. -/
def hSample : History :=
  ⟨fun d => if d = 95 then some ⟨some 100, some 500, some 32, some 95⟩ else none,
   none⟩

/-! Theorems, one per claim. -/

/-- C7: for all positive inputs the conversion endpoint returns
converted_price = adr_price / 5 * usd_twd, exactly (rational arithmetic
models the float computation of the source; exact equality implies the
1e-9 tolerance of the claim), for any reference price. -/
theorem convert_formula (p r : ℚ) (ref : Option ℚ) (hp : 0 < p) (hr : 0 < r) :
    (convert_adr_to_tw p r ref).converted_price = p / 5 * r := by
  cases ref with
  | none => rfl
  | some t => by_cases ht : t = 0 <;> simp [convert_adr_to_tw, ht]

/-- C7 witness: convert(100, 32) yields 640. -/
theorem convert_formula_witness :
    (0 : ℚ) < 100 ∧ (0 : ℚ) < 32 ∧
      (convert_adr_to_tw 100 32 none).converted_price = 640 := by
  refine ⟨by norm_num, by norm_num, ?_⟩
  rw [convert_formula 100 32 none (by norm_num) (by norm_num)]
  norm_num

/-- C8: the comparison block is present exactly when the reference local
price is present and nonzero, and then carries difference =
converted_price − reference and difference_percent = difference /
reference * 100; when the reference is absent or zero the block is none. -/
theorem comparison_presence (p r : ℚ) (ref : Option ℚ) :
    ((convert_adr_to_tw p r ref).compared_to_tw_price ≠ none ↔
      ∃ t, ref = some t ∧ t ≠ 0) ∧
    (∀ t, ref = some t → t ≠ 0 →
      (convert_adr_to_tw p r ref).compared_to_tw_price =
        some ⟨t, p / 5 * r - t, (p / 5 * r - t) / t * 100⟩) := by
  constructor
  · cases ref with
    | none => simp [convert_adr_to_tw]
    | some t => by_cases ht : t = 0 <;> simp [convert_adr_to_tw, ht]
  · intro t hteq ht
    subst hteq
    simp [convert_adr_to_tw, ht]

/-- C8 witness: with reference 500, convert(100, 32) carries the block
with difference 140 and difference_percent 28; with reference 0 or no
reference the block is absent. -/
theorem comparison_presence_witness :
    (convert_adr_to_tw 100 32 (some 500)).compared_to_tw_price =
      some ⟨500, 100 / 5 * 32 - 500, (100 / 5 * 32 - 500) / 500 * 100⟩ ∧
    (convert_adr_to_tw 100 32 (some 0)).compared_to_tw_price = none ∧
    (convert_adr_to_tw 100 32 none).compared_to_tw_price = none := by
  refine ⟨(comparison_presence 100 32 (some 500)).2 500 rfl (by norm_num), ?_, rfl⟩
  have h := (comparison_presence 100 32 (some 0)).1
  by_contra hne
  exact absurd (h.mp hne) (by simp)

/-- C4 counterexample: the gate permits the call (fresh ledger), the
outbound request raises before a response is decoded, and record_api_call
does not run: the upstream was contacted yet the count for the date stays
0 and the log stays empty, refuting that record_api_call is invoked on
every permitted attempt regardless of failure. -/
theorem record_skipped_on_raise_cex :
    check_api_limit emptyUsage 0 = true ∧
    (fetch_adr_price none emptyUsage 0 "T0").contacted = true ∧
    (fetch_adr_price none emptyUsage 0 "T0").recorded = false ∧
    ((fetch_adr_price none emptyUsage 0 "T0").usage 0).calls = 0 ∧
    ((fetch_adr_price none emptyUsage 0 "T0").usage 0).log = [] := by
  decide

/-- C4 (amended): when the quota gate permits the attempt, record_api_call
runs exactly once iff the outbound call returns a JSON-decodable response
(in particular also when the expected price field is absent from it),
incrementing the count for the date and appending one log entry; when the
request or the JSON decode raises, record_api_call does not run and the
ledger is unchanged. -/
theorem record_iff_parsed (u : Usage) (today : Int) (now : String)
    (hg : check_api_limit u today = true) :
    (∀ q, (fetch_adr_price (some q) u today now).contacted = true ∧
      (fetch_adr_price (some q) u today now).recorded = true ∧
      (fetch_adr_price (some q) u today now).usage today =
        ⟨(u today).calls + 1,
         (u today).log ++ [⟨"ALPHA_VANTAGE_ADR", now⟩]⟩) ∧
    (fetch_adr_price none u today now).contacted = true ∧
    (fetch_adr_price none u today now).recorded = false ∧
    (fetch_adr_price none u today now).usage = u := by
  refine ⟨fun q => ⟨?_, ?_, ?_⟩, ?_, ?_, ?_⟩ <;>
    simp [fetch_adr_price, hg, record_api_call, updateUsage]

/-- C4 witness: on a fresh ledger, a decoded response lacking the price
field is still recorded (count becomes 1), and a raising request is not. -/
theorem record_iff_parsed_witness :
    (fetch_adr_price (some none) emptyUsage 0 "T0").recorded = true ∧
    ((fetch_adr_price (some none) emptyUsage 0 "T0").usage 0).calls = 1 ∧
    (fetch_adr_price none emptyUsage 0 "T0").recorded = false := by
  have h := record_iff_parsed emptyUsage 0 "T0" (by decide)
  exact ⟨(h.1 none).2.1, by rw [(h.1 none).2.2]; rfl, h.2.2.1⟩

/-- C5: when the cache is invalid and the quota-quote fetch yields no
price, get_cached_prices returns the old cached receipt price together
with the freshly fetched local price and exchange rate, marked
cached_due_to_api_limit, and leaves the persisted snapshot store
unchanged. -/
theorem limit_branch_synthesized (env : Env) (cache : Cache) (usage : Usage)
    (today : Int) (now : String)
    (hv : is_cache_valid cache today = false)
    (hp : (fetch_adr_price env.adr_resp usage today now).price = none) :
    (get_cached_prices env cache usage today now).result =
      ⟨cache.adr_price, env.tw_resp, env.rate_resp, cache.last_updated,
        cache.date, some "cached_due_to_api_limit"⟩ ∧
    (get_cached_prices env cache usage today now).cache = cache := by
  constructor <;> simp [get_cached_prices, hv, hp]

/-- C5 witness: the scenario of the claim — quota at limit (calls = 2),
cached receipt 150, fresh local 600, fresh rate 31.5 — returns exactly
those three values marked cached_due_to_api_limit and the store is the
unchanged stale snapshot. -/
theorem limit_branch_synthesized_witness :
    (get_cached_prices envAtLimit staleCache uAtLimit 10 "D10").result =
      ⟨some 150, some 600, some (63 / 2), some "D9", some 9,
        some "cached_due_to_api_limit"⟩ ∧
    (get_cached_prices envAtLimit staleCache uAtLimit 10 "D10").cache =
      staleCache := by
  have h := limit_branch_synthesized envAtLimit staleCache uAtLimit 10 "D10"
    (by decide) (by decide)
  exact ⟨by rw [h.1]; rfl, h.2⟩

/-- C10: in the cached_due_to_api_limit branch the returned cache_date and
last_updated are taken unchanged from the stale persisted cache, the
returned cache_date is never the current date, and a further call the same
day against the unchanged store runs the fetch branch again instead of
reusing the synthesized result. -/
theorem limit_branch_stays_invalid (env env2 : Env) (cache : Cache)
    (usage usage2 : Usage) (today : Int) (now now2 : String)
    (hv : is_cache_valid cache today = false)
    (hp : (fetch_adr_price env.adr_resp usage today now).price = none) :
    (get_cached_prices env cache usage today now).result.cache_date =
      cache.date ∧
    (get_cached_prices env cache usage today now).result.last_updated =
      cache.last_updated ∧
    (get_cached_prices env cache usage today now).result.cache_date ≠
      some today ∧
    (get_cached_prices env2 (get_cached_prices env cache usage today now).cache
        usage2 today now2).fetch_attempted = true := by
  have hv2 : ¬ cache.date = some today := by simpa [is_cache_valid] using hv
  refine ⟨?_, ?_, ?_, ?_⟩
  · simp [get_cached_prices, hv, hp]
  · simp [get_cached_prices, hv, hp]
  · simp only [get_cached_prices, hv, Bool.false_eq_true, if_false, hp]
    exact hv2
  · have hc : (get_cached_prices env cache usage today now).cache = cache := by
      simp [get_cached_prices, hv, hp]
    rw [hc]
    simp only [get_cached_prices, hv, Bool.false_eq_true, if_false]
    split <;> rfl

/-- C10 witness: with the stale day-9 snapshot and the quota at limit on
day 10, the returned cache_date is day 9 (not day 10) and a second call
the same day attempts the fetches again. -/
theorem limit_branch_stays_invalid_witness :
    (get_cached_prices envAtLimit staleCache uAtLimit 10 "D10").result.cache_date =
      some 9 ∧
    (get_cached_prices envAtLimit staleCache uAtLimit 10 "D10").result.cache_date ≠
      some 10 ∧
    (get_cached_prices envAtLimit
        (get_cached_prices envAtLimit staleCache uAtLimit 10 "D10").cache
        uAtLimit 10 "D10b").fetch_attempted = true := by
  have h := limit_branch_stays_invalid envAtLimit envAtLimit staleCache
    uAtLimit uAtLimit 10 "D10" "D10b" (by decide) (by decide)
  exact ⟨by rw [h.1]; rfl, h.2.2.1, h.2.2.2⟩

/-- C2 counterexample: a first call succeeds with source fresh_api_call
(persisting a snapshot dated today with a receipt price), yet the record
returned by the second call that day is not identical to the first one:
the fast path omits the data_source key that the fresh result carries. -/
theorem second_call_not_identical_cex :
    (get_cached_prices envFresh emptyCache emptyUsage 10 "T1").result.data_source =
      some "fresh_api_call" ∧
    (get_cached_prices envFresh emptyCache emptyUsage 10 "T1").cache.date =
      some 10 ∧
    (get_cached_prices envFresh
        (get_cached_prices envFresh emptyCache emptyUsage 10 "T1").cache
        (get_cached_prices envFresh emptyCache emptyUsage 10 "T1").usage
        10 "T2").result ≠
      (get_cached_prices envFresh emptyCache emptyUsage 10 "T1").result := by
  decide

/-- C2 (amended): if a call succeeds with source fresh_api_call, a second
call on the same day takes the fast path (no fetch of any upstream, no
contact with the quota-limited one, store unchanged) and returns the first
result with its data_source field removed — identical in adr_price,
tw_price, usd_twd, last_updated and cache_date, but lacking the
data_source key the fresh result carried. -/
theorem fresh_then_fast_path (env env2 : Env) (cache : Cache)
    (usage usage2 : Usage) (today : Int) (now now2 : String)
    (hfresh : (get_cached_prices env cache usage today now).result.data_source =
      some "fresh_api_call") :
    (get_cached_prices env2 (get_cached_prices env cache usage today now).cache
        usage2 today now2).fetch_attempted = false ∧
    (get_cached_prices env2 (get_cached_prices env cache usage today now).cache
        usage2 today now2).adr_contacted = false ∧
    (get_cached_prices env2 (get_cached_prices env cache usage today now).cache
        usage2 today now2).result =
      { (get_cached_prices env cache usage today now).result with
          data_source := none } ∧
    (get_cached_prices env2 (get_cached_prices env cache usage today now).cache
        usage2 today now2).cache =
      (get_cached_prices env cache usage today now).cache := by
  by_cases hv : is_cache_valid cache today
  · exfalso
    simp [get_cached_prices, hv] at hfresh
  · rw [Bool.not_eq_true] at hv
    cases hp : (fetch_adr_price env.adr_resp usage today now).price with
    | none =>
        exfalso
        rw [show (get_cached_prices env cache usage today now).result.data_source =
            some "cached_due_to_api_limit" by simp [get_cached_prices, hv, hp]]
          at hfresh
        exact absurd (Option.some.inj hfresh) (by decide)
    | some a =>
        have hg : get_cached_prices env cache usage today now =
            ⟨⟨some a, env.tw_resp, env.rate_resp, some now, some today,
              some "fresh_api_call"⟩,
             ⟨some today, some a, env.tw_resp, env.rate_resp, some now,
              some "fresh_api_call"⟩,
             (fetch_adr_price env.adr_resp usage today now).usage, true,
             (fetch_adr_price env.adr_resp usage today now).contacted⟩ := by
          simp [get_cached_prices, hv, hp]
        rw [hg]
        simp [get_cached_prices, is_cache_valid]

/-- C2 witness: the concrete fresh-then-reuse scenario — the second call
attempts no fetch and returns the fresh result minus its data_source
field. -/
theorem fresh_then_fast_path_witness :
    (get_cached_prices envFresh
        (get_cached_prices envFresh emptyCache emptyUsage 10 "T1").cache
        emptyUsage 10 "T2").fetch_attempted = false ∧
    (get_cached_prices envFresh
        (get_cached_prices envFresh emptyCache emptyUsage 10 "T1").cache
        emptyUsage 10 "T2").result =
      { (get_cached_prices envFresh emptyCache emptyUsage 10 "T1").result with
          data_source := none } := by
  have h := fresh_then_fast_path envFresh envFresh emptyCache emptyUsage
    emptyUsage 10 "T1" "T2" (by decide)
  exact ⟨h.1, h.2.2.1⟩

/-- With an invalid cache, get_cached_prices propagates the ledger and the
contact flag of its single fetch_adr_price invocation. -/
theorem gcp_usage_contact (e : Env) (cache : Cache) (u : Usage) (today : Int)
    (now : String) (hv : is_cache_valid cache today = false) :
    (get_cached_prices e cache u today now).usage =
      (fetch_adr_price e.adr_resp u today now).usage ∧
    (get_cached_prices e cache u today now).adr_contacted =
      (fetch_adr_price e.adr_resp u today now).contacted := by
  simp only [get_cached_prices, hv, Bool.false_eq_true, if_false]
  constructor <;> split <;> rfl

/-- The count of record_api_call for the current date after it runs. -/
theorem record_api_call_today (api : String) (u : Usage) (today : Int)
    (now : String) :
    ((record_api_call api u today now).1 today).calls = (u today).calls + 1 := by
  simp [record_api_call, updateUsage]

/-- C1 counterexample: with a fresh ledger, three refresh calls against an
invalidated cache whose quota-quote requests all raise contact the
quota-limited upstream three times — more than MAX_API_CALLS_PER_DAY —
because a raising attempt is never recorded against the quota. -/
theorem quota_contacts_exceed_limit_cex :
    (runRefreshes 0 "T0" emptyCache [envDown, envDown, envDown] emptyUsage).2 = 3 ∧
    ¬ (runRefreshes 0 "T0" emptyCache [envDown, envDown, envDown] emptyUsage).2 ≤
        MAX_API_CALLS_PER_DAY := by
  decide

/-- The number of completing contacts in a sequence of get_cached_prices
calls against a cache invalidated before every call: a call contributes
exactly when its fetch_adr_price invocation both contacted the upstream
and recorded the call — that is, when the attempt completed its HTTP round
trip and JSON decode.  The ledger is threaded through the calls exactly as
in runRefreshes. -/
def completedContacts (today : Int) (now : String) (cache : Cache) :
    List Env → Usage → Nat
  | [], _ => 0
  | e :: es, u =>
      let g := get_cached_prices e cache u today now
      let fr := fetch_adr_price e.adr_resp u today now
      (if fr.contacted && fr.recorded then 1 else 0) +
        completedContacts today now cache es g.usage

/-- C1 (amended): for every calendar date, over any sequence of
get_cached_prices calls with an invalid cache — attempts that raise and
attempts that complete freely mixed — at most MAX_API_CALLS_PER_DAY (2,
minus any calls already on the ledger) of the contacts made to the
quota-limited upstream complete their HTTP round trip and JSON decode,
because exactly the completing contacts are recorded against the quota;
raising contacts are unrecorded and unbounded. -/
theorem quota_completed_contacts_bounded (today : Int) (now : String)
    (cache : Cache) (envs : List Env) (u : Usage)
    (hv : is_cache_valid cache today = false) :
    completedContacts today now cache envs u ≤
      MAX_API_CALLS_PER_DAY - (u today).calls := by
  induction envs generalizing u with
  | nil => simp [completedContacts]
  | cons e es ih =>
      have hgu := (gcp_usage_contact e cache u today now hv).1
      simp only [completedContacts]
      rw [hgu]
      by_cases hlim : check_api_limit u today = true
      · have hcalls : (u today).calls < MAX_API_CALLS_PER_DAY := by
          simpa [check_api_limit] using hlim
        cases hq : e.adr_resp with
        | none =>
            simp only [fetch_adr_price, hq, hlim, if_true, Bool.and_false,
              Bool.false_eq_true, if_false, Nat.zero_add]
            exact ih u
        | some q =>
            simp only [fetch_adr_price, hq, hlim, if_true, Bool.and_self]
            have hrest := ih ((record_api_call "ALPHA_VANTAGE_ADR" u today now).1)
            rw [record_api_call_today] at hrest
            omega
      · rw [Bool.not_eq_true] at hlim
        simp only [fetch_adr_price, hlim, Bool.false_eq_true, if_false,
          Bool.and_self, Nat.zero_add]
        exact ih u

/-- C1 witness: a mixed sequence of five refreshes — raising and
completing attempts interleaved — has at most two completing contacts
starting from a fresh ledger. -/
theorem quota_completed_contacts_bounded_witness :
    completedContacts 0 "T0" emptyCache
        [envDown, envFresh, envDown, envFresh, envFresh] emptyUsage ≤
      MAX_API_CALLS_PER_DAY - (emptyUsage 0).calls :=
  quota_completed_contacts_bounded 0 "T0" emptyCache
    [envDown, envFresh, envDown, envFresh, envFresh] emptyUsage (by decide)

/-- The backfill loop never removes a date-keyed record: presence at any
date is preserved. -/
theorem processEntries_preserves (tw : Int → Option ℚ)
    (es : List (Int × Option ℚ)) (h : History) (d : Int)
    (hd : (h.records d).isSome = true) :
    ((processEntries tw es h).records d).isSome = true := by
  induction es generalizing h with
  | nil => exact hd
  | cons e rest ih =>
      obtain ⟨dd, c⟩ := e
      cases c with
      | none => exact ih h hd
      | some a =>
          cases htw : tw dd with
          | none => simp only [processEntries, htw]; exact ih h hd
          | some t =>
              simp only [processEntries, htw]
              apply ih
              simp only [setRecord]
              by_cases hx : d = dd <;> simp [hx, hd]

/-- C3 counterexample: a store holding a complete record 100 days old (day
0, current date day 100, 100 − 60 = 40 > 0) goes through a successful
backfill pass (the sentinel is updated to the current date) and the record
is still there: fetch_historical_data prunes nothing. -/
theorem retention_not_enforced_cex :
    (fetch_historical_data (some []) tw0 oldHistory 100).history.last_fetch_date =
      some 100 ∧
    (fetch_historical_data (some []) tw0 oldHistory 100).history.records 0 =
      some ⟨some 1, some 2, some 32, some 0⟩ ∧
    (0 : Int) < 100 - 60 := by
  decide

/-- C3 (amended): a backfill pass of fetch_historical_data performs no
retention pruning: every date-keyed record present before the pass is
still present afterwards, however old its date; the last_fetch_date
sentinel is likewise kept (or set to the current date on a successful
fetch). -/
theorem backfill_never_prunes (ts : Option (List (Int × Option ℚ)))
    (tw : Int → Option ℚ) (h : History) (today d : Int) (r : HistRecord)
    (hd : h.records d = some r) :
    (((fetch_historical_data ts tw h today).history.records d).isSome = true) := by
  unfold fetch_historical_data
  by_cases hs : h.last_fetch_date = some today
  · simp [hs, hd]
  · cases ts with
    | none => simp [hs, hd]
    | some entries =>
        simp only [hs, if_false]
        exact processEntries_preserves tw (entries.take 30) h d (by simp [hd])

/-- C3 witness: the 100-day-old record survives the concrete backfill
pass. -/
theorem backfill_never_prunes_witness :
    ((fetch_historical_data (some []) tw0 oldHistory 100).history.records 0).isSome =
      true :=
  backfill_never_prunes (some []) tw0 oldHistory 100 0
    ⟨some 1, some 2, some 32, some 0⟩ (by decide)

/-- C6 counterexample: a call made when the sentinel holds day 4 and the
time-series fetch fails (request raises or the expected key is absent)
contacts the endpoint but leaves the sentinel at day 4, not day 5; a
second call the same day contacts the endpoint again, so the endpoint is
not limited to one contact per calendar day. -/
theorem sentinel_stale_on_failure_cex :
    (fetch_historical_data none tw0 hYesterday 5).history.last_fetch_date =
      some 4 ∧
    some (4 : Int) ≠ some (5 : Int) ∧
    (fetch_historical_data none tw0 hYesterday 5).ts_contacted = true ∧
    (fetch_historical_data none tw0
        (fetch_historical_data none tw0 hYesterday 5).history 5).ts_contacted =
      true := by
  refine ⟨rfl, by decide, rfl, rfl⟩

/-- C6 (amended): a call made when the stored sentinel already equals the
current date attempts no time-series fetch and leaves the store unchanged;
a call whose time-series fetch succeeds sets the sentinel to the current
date; a call whose fetch fails contacts the endpoint but leaves the store,
sentinel included, unchanged — so the sentinel equals the current date
after a call only when the call was skipped or its fetch succeeded. -/
theorem sentinel_behavior (ts : Option (List (Int × Option ℚ)))
    (tw : Int → Option ℚ) (h : History) (today : Int) :
    (h.last_fetch_date = some today →
      (fetch_historical_data ts tw h today).history = h ∧
      (fetch_historical_data ts tw h today).ts_contacted = false) ∧
    (h.last_fetch_date ≠ some today → ts ≠ none →
      (fetch_historical_data ts tw h today).history.last_fetch_date =
        some today) ∧
    (h.last_fetch_date ≠ some today → ts = none →
      (fetch_historical_data ts tw h today).history = h ∧
      (fetch_historical_data ts tw h today).ts_contacted = true) := by
  refine ⟨fun hs => ?_, fun hs hts => ?_, fun hs hts => ?_⟩
  · simp [fetch_historical_data, hs]
  · cases ts with
    | none => exact absurd rfl hts
    | some entries => simp [fetch_historical_data, hs]
  · subst hts
    simp [fetch_historical_data, hs]

/-- C6 witness: a successful fetch moves the sentinel from day 4 to day 5,
and a call with the sentinel already at day 5 makes no contact. -/
theorem sentinel_behavior_witness :
    (fetch_historical_data (some []) tw0 hYesterday 5).history.last_fetch_date =
      some 5 ∧
    (fetch_historical_data none tw0 hToday5 5).ts_contacted = false := by
  refine ⟨(sentinel_behavior (some []) tw0 hYesterday 5).2.1 (by decide) (by simp),
    ((sentinel_behavior none tw0 hToday5 5).1 rfl).2⟩

/-- An output entry produced for a date carries that date. -/
theorem histEntry_date (h : History) (d : Int) (o : HistOut)
    (ho : histEntry h d = some o) : o.date = d := by
  unfold histEntry at ho
  split at ho
  · exact absurd ho (by simp)
  · split at ho
    · injection ho with ho2
      rw [← ho2]
    · exact absurd ho (by simp)

/-- Membership in the historical output: an element occurs iff its date
lies in the trailing window and the per-date body yields it. -/
theorem mem_get_historical_data (h : History) (today : Int) (o : HistOut) :
    o ∈ get_historical_data h today ↔
      (today - 30 ≤ o.date ∧ o.date ≤ today - 1 ∧
        histEntry h o.date = some o) := by
  unfold get_historical_data
  simp only [List.mem_filterMap, List.mem_map, List.mem_range]
  constructor
  · rintro ⟨d, ⟨j, hj, rfl⟩, ho⟩
    have hdate := histEntry_date h _ o ho
    exact ⟨by omega, by omega, by rw [hdate]; exact ho⟩
  · rintro ⟨h1, h2, h3⟩
    exact ⟨o.date, ⟨(o.date - (today - 30)).toNat, by omega, by omega⟩, h3⟩

/-- C9: the historical endpoint output is strictly ordered by date, oldest
first; it contains an element exactly when its date lies in the trailing
30 calendar dates (today − 30 through today − 1, today excluded) and the
per-date body yields it; the body produces an entry for a date precisely
from a stored record carrying all three base fields, with adr_in_twd =
adr_price / 5 * usd_twd, difference = adr_in_twd − tw_price and
difference_percent = difference / tw_price * 100, and yields nothing when
the record is absent or lacks one of the three fields. -/
theorem historical_series_spec (h : History) (today : Int) :
    List.Pairwise (fun a b => a.date < b.date) (get_historical_data h today) ∧
    (∀ o, o ∈ get_historical_data h today ↔
      (today - 30 ≤ o.date ∧ o.date ≤ today - 1 ∧
        histEntry h o.date = some o)) ∧
    (∀ d r a t uu, h.records d = some r → r.adr_price = some a →
      r.tw_price = some t → r.usd_twd = some uu →
      histEntry h d = some ⟨d, a, t, uu, a / 5 * uu, a / 5 * uu - t,
        (a / 5 * uu - t) / t * 100⟩) ∧
    (∀ d, h.records d = none → histEntry h d = none) ∧
    (∀ d r, h.records d = some r →
      (r.adr_price = none ∨ r.tw_price = none ∨ r.usd_twd = none) →
      histEntry h d = none) := by
  refine ⟨?_, mem_get_historical_data h today, ?_, ?_, ?_⟩
  · have hpr : List.Pairwise (fun a b : ℤ => a < b)
        ((List.range 30).map (fun j : ℕ => today - 30 + (j : ℤ))) := by
      rw [List.pairwise_map]
      exact (List.pairwise_lt_range 30).imp (fun hij => by omega)
    unfold get_historical_data
    refine List.Pairwise.filterMap (histEntry h) (fun a b hab => ?_) hpr
    intro x hx y hy
    rw [Option.mem_def] at hx hy
    rw [histEntry_date h a x hx, histEntry_date h b y hy]
    exact hab
  · intro d r a t uu hr ha ht hu
    simp [histEntry, hr, ha, ht, hu]
  · intro d hd
    simp [histEntry, hd]
  · intro d r hr hnone
    rcases hnone with h1 | h1 | h1
    · simp [histEntry, hr, h1]
    · cases ha2 : r.adr_price <;> simp [histEntry, hr, ha2, h1]
    · cases ha2 : r.adr_price with
      | none => simp [histEntry, hr, ha2]
      | some a => cases ht2 : r.tw_price <;> simp [histEntry, hr, ha2, ht2, h1]

/-- C9 witness: the store with one complete record at day 95 (receipt 100,
local 500, rate 32) yields, on day 100, the entry for day 95 with
adr_in_twd 640, difference 140 and difference_percent 28. -/
theorem historical_series_spec_witness :
    (⟨95, 100, 500, 32, 640, 140, 28⟩ : HistOut) ∈ get_historical_data hSample 100 := by
  refine ((historical_series_spec hSample 100).2.1 _).mpr ⟨by decide, by decide, ?_⟩
  norm_num [histEntry, hSample]
